import Mathlib

/-!
Verification of the storycraftr markdown persistence layer, agent lifecycle
and consolidation pipeline, embedded from
`src/storycraftr/utils/markdown.py` and `src/storycraftr/agent/agents.py`.

Files on disk are modelled as a map from full path to content; the effects
of a python function are recorded as a list of file-system events in program
order, so that both the final state and the order of writes can be stated.
-/

/-- A file system: full path to file content, `none` when the file is absent. -/
def Fs : Type := String → Option String

/-- Write (or overwrite) one file. -/
def Fs.write (fs : Fs) (p c : String) : Fs :=
  fun q => if q = p then some c else fs q

theorem Fs.write_same (fs : Fs) (p c : String) : Fs.write fs p c p = some c := by
  unfold Fs.write
  rw [if_pos rfl]

theorem Fs.write_other (fs : Fs) (p c q : String) (h : q ≠ p) :
    Fs.write fs p c q = fs q := by
  unfold Fs.write
  rw [if_neg h]

/-- File-system effects performed by the python code, in program order. -/
inductive FsEvent : Type
  | copyFile (src dst : String)
  | writeFile (p c : String)
deriving DecidableEq, Repr

/-- Apply one event. `shutil.copyfile` copies the current content of `src`
to `dst`; the embedding leaves the state unchanged when `src` is absent
(the python code only copies after an existence check on `src`). -/
def applyEvent (fs : Fs) : FsEvent → Fs
  | .copyFile s d =>
    match fs s with
    | some c => fs.write d c
    | none => fs
  | .writeFile p c => fs.write p c

/-- Apply a list of events in order. -/
def applyEvents (fs : Fs) (evs : List FsEvent) : Fs :=
  evs.foldl applyEvent fs

theorem applyEvents_single (fs : Fs) (e : FsEvent) :
    applyEvents fs [e] = applyEvent fs e := rfl

theorem applyEvents_pair (fs : Fs) (e1 e2 : FsEvent) :
    applyEvents fs [e1, e2] = applyEvent (applyEvent fs e1) e2 := rfl

theorem applyEvent_writeFile (fs : Fs) (p c : String) :
    applyEvent fs (FsEvent.writeFile p c) = Fs.write fs p c := rfl

theorem applyEvent_copyFile_some (fs : Fs) (s d c : String) (h : fs s = some c) :
    applyEvent fs (FsEvent.copyFile s d) = Fs.write fs d c := by
  simp only [applyEvent, h]

/-- The `pathlib` stem/suffix split of a file name: the name splits at its
last dot, except when that dot is the first or the last character of the
name, in which case the suffix is empty. Mirrors `PurePath.stem` and
`PurePath.suffix`. -/
def pySplitExt (name : String) : String × String :=
  match name.data.reverse.dropWhile (fun c => c ≠ '.'),
        name.data.reverse.takeWhile (fun c => c ≠ '.') with
  | c :: t1 :: tl, _ :: _ =>
    (String.mk ((t1 :: tl).reverse),
     String.mk (c :: (name.data.reverse.takeWhile (fun c => c ≠ '.')).reverse))
  | _, _ => (name, "")

/-- `PurePath.stem` of a file name. -/
def pyStem (name : String) : String := (pySplitExt name).1

/-- `PurePath.suffix` of a file name. -/
def pySuffix (name : String) : String := (pySplitExt name).2

theorem pySplitExt_append (name : String) :
    (pySplitExt name).1 ++ (pySplitExt name).2 = name := by
  unfold pySplitExt
  have hsplit := List.takeWhile_append_dropWhile
    (fun c => decide (c ≠ '.')) name.data.reverse
  cases hrest : name.data.reverse.dropWhile (fun c => decide (c ≠ '.')) with
  | nil =>
    cases htaken : name.data.reverse.takeWhile (fun c => decide (c ≠ '.')) with
    | nil => simpa only [hrest, htaken] using String.append_empty name
    | cons x xs => simpa only [hrest, htaken] using String.append_empty name
  | cons c tl0 =>
    cases tl0 with
    | nil =>
      cases htaken : name.data.reverse.takeWhile (fun c => decide (c ≠ '.')) with
      | nil => simpa only [hrest, htaken] using String.append_empty name
      | cons x xs => simpa only [hrest, htaken] using String.append_empty name
    | cons t1 tl =>
      cases htaken : name.data.reverse.takeWhile (fun c => decide (c ≠ '.')) with
      | nil => simpa only [hrest, htaken] using String.append_empty name
      | cons x xs =>
        simp only [hrest, htaken]
        have hmk : String.mk ((t1 :: tl).reverse) ++ String.mk (c :: (x :: xs).reverse) =
            String.mk ((t1 :: tl).reverse ++ (c :: (x :: xs).reverse)) := rfl
        rw [hmk]
        have hdata : (t1 :: tl).reverse ++ (c :: (x :: xs).reverse) = name.data := by
          rw [htaken, hrest] at hsplit
          have h1 : name.data = ((x :: xs) ++ (c :: t1 :: tl)).reverse := by
            rw [hsplit, List.reverse_reverse]
          rw [h1, List.reverse_append]
          rw [show (c :: t1 :: tl).reverse = (t1 :: tl).reverse ++ [c] from
            List.reverse_cons c (t1 :: tl)]
          rw [List.append_assoc]
          rfl
        rw [hdata]

theorem pyStem_append_pySuffix (name : String) :
    pyStem name ++ pySuffix name = name :=
  pySplitExt_append name

/-- Full path of a file directly under the book directory (posix join of
`Path(book_path) / file_name`). -/
def bookFilePath (book_path file_name : String) : String :=
  book_path ++ "/" ++ file_name

/-- Full path of a file in a folder of the book directory (posix join of
`Path(book_path) / folder_name / file_name`). -/
def folderFilePath (book_path folder_name file_name : String) : String :=
  book_path ++ "/" ++ folder_name ++ "/" ++ file_name

/-- Backup path used by `save_to_markdown`:
`file_path.with_suffix(file_path.suffix + ".back")`, which keeps the stem
and replaces the suffix by the old suffix followed by `.back`. -/
def backupPath (book_path file_name : String) : String :=
  book_path ++ "/" ++ (pyStem file_name ++ (pySuffix file_name ++ ".back"))

theorem backupPath_eq (book_path file_name : String) :
    backupPath book_path file_name = bookFilePath book_path file_name ++ ".back" := by
  unfold backupPath bookFilePath
  rw [← String.append_assoc (pyStem file_name) (pySuffix file_name) ".back",
    pyStem_append_pySuffix,
    String.append_assoc (book_path ++ "/") file_name ".back"]

/-- The content written by `save_to_markdown`: `f"# {header}\n\n{content}"`. -/
def savedContent (header content : String) : String :=
  "# " ++ header ++ "\n\n" ++ content

/-- File-system effects of `save_to_markdown(book_path, file_name, header,
content)` in program order (markdown.py lines 34-54): when the target file
exists it is first copied to the backup path, then the new content is
written to the target. -/
def save_to_markdown_events (fs : Fs) (book_path file_name header content : String) :
    List FsEvent :=
  (if (fs (bookFilePath book_path file_name)).isSome then
    [FsEvent.copyFile (bookFilePath book_path file_name) (backupPath book_path file_name)]
  else [])
  ++ [FsEvent.writeFile (bookFilePath book_path file_name) (savedContent header content)]

/-- `save_to_markdown`: the resulting file system and the returned path. -/
def save_to_markdown (fs : Fs) (book_path file_name header content : String) :
    Fs × String :=
  (applyEvents fs (save_to_markdown_events fs book_path file_name header content),
   bookFilePath book_path file_name)

/-- A path with `.back` appended differs from the path itself. -/
theorem append_back_ne (p : String) : p ++ ".back" ≠ p := by
  intro h
  have h2 := congrArg String.length h
  rw [String.length_append] at h2
  have h3 : String.length ".back" = 5 := rfl
  omega

/-- C1: when the target of `save_to_markdown` already exists, the events are
exactly a copy of the target to the `.back` path followed by the overwrite
of the target (so the backup is written before the overwrite), and
afterwards the backup file holds the prior content of the target. -/
theorem save_to_markdown_backs_up
    (fs : Fs) (book_path file_name header content old : String)
    (h : fs (bookFilePath book_path file_name) = some old) :
    save_to_markdown_events fs book_path file_name header content =
      [FsEvent.copyFile (bookFilePath book_path file_name)
         (bookFilePath book_path file_name ++ ".back"),
       FsEvent.writeFile (bookFilePath book_path file_name) (savedContent header content)] ∧
    (save_to_markdown fs book_path file_name header content).1
      (bookFilePath book_path file_name ++ ".back") = some old ∧
    (save_to_markdown fs book_path file_name header content).1
      (bookFilePath book_path file_name) = some (savedContent header content) := by
  have hev : save_to_markdown_events fs book_path file_name header content =
      [FsEvent.copyFile (bookFilePath book_path file_name)
         (bookFilePath book_path file_name ++ ".back"),
       FsEvent.writeFile (bookFilePath book_path file_name) (savedContent header content)] := by
    unfold save_to_markdown_events
    rw [h, backupPath_eq]
    rfl
  refine ⟨hev, ?_, ?_⟩
  · show applyEvents fs (save_to_markdown_events fs book_path file_name header content)
      (bookFilePath book_path file_name ++ ".back") = some old
    rw [hev, applyEvents_pair,
      applyEvent_copyFile_some fs (bookFilePath book_path file_name)
        (bookFilePath book_path file_name ++ ".back") old h,
      applyEvent_writeFile]
    rw [Fs.write_other _ _ _ _ (append_back_ne (bookFilePath book_path file_name)),
      Fs.write_same]
  · show applyEvents fs (save_to_markdown_events fs book_path file_name header content)
      (bookFilePath book_path file_name) = some (savedContent header content)
    rw [hev, applyEvents_pair,
      applyEvent_copyFile_some fs (bookFilePath book_path file_name)
        (bookFilePath book_path file_name ++ ".back") old h,
      applyEvent_writeFile]
    rw [Fs.write_same]

/-- Witness for C1 at a concrete file system holding the target file. -/
theorem save_to_markdown_backs_up_witness :
    save_to_markdown_events
        (fun q => if q = "b/f.md" then some "old" else none) "b" "f.md" "H" "body" =
      [FsEvent.copyFile "b/f.md" "b/f.md.back",
       FsEvent.writeFile "b/f.md" "# H\n\nbody"] ∧
    (save_to_markdown (fun q => if q = "b/f.md" then some "old" else none)
        "b" "f.md" "H" "body").1 "b/f.md.back" = some "old" ∧
    (save_to_markdown (fun q => if q = "b/f.md" then some "old" else none)
        "b" "f.md" "H" "body").1 "b/f.md" = some "# H\n\nbody" :=
  save_to_markdown_backs_up
    (fun q => if q = "b/f.md" then some "old" else none) "b" "f.md" "H" "body" "old"
    (by decide)

/-- C9: for every call, the content saved by `save_to_markdown` is exactly
`"# "`, the header, a blank line and the content; and when the target file
did not exist before the call, the only event is the write of the target
(no copy is made) and the `.back` path is left untouched. -/
theorem save_to_markdown_exact_content
    (fs : Fs) (book_path file_name header content : String) :
    (save_to_markdown fs book_path file_name header content).1
      (bookFilePath book_path file_name) =
        some ("# " ++ header ++ "\n\n" ++ content) ∧
    (fs (bookFilePath book_path file_name) = none →
      save_to_markdown_events fs book_path file_name header content =
        [FsEvent.writeFile (bookFilePath book_path file_name)
          (savedContent header content)] ∧
      (save_to_markdown fs book_path file_name header content).1
        (bookFilePath book_path file_name ++ ".back") =
          fs (bookFilePath book_path file_name ++ ".back")) := by
  cases h : fs (bookFilePath book_path file_name) with
  | none =>
    have hev : save_to_markdown_events fs book_path file_name header content =
        [FsEvent.writeFile (bookFilePath book_path file_name)
          (savedContent header content)] := by
      unfold save_to_markdown_events
      rw [h]
      rfl
    refine ⟨?_, fun _ => ⟨hev, ?_⟩⟩
    · show applyEvents fs (save_to_markdown_events fs book_path file_name header content)
        (bookFilePath book_path file_name) = some ("# " ++ header ++ "\n\n" ++ content)
      rw [hev, applyEvents_single, applyEvent_writeFile, Fs.write_same]
      rfl
    · show applyEvents fs (save_to_markdown_events fs book_path file_name header content)
        (bookFilePath book_path file_name ++ ".back") =
          fs (bookFilePath book_path file_name ++ ".back")
      rw [hev, applyEvents_single, applyEvent_writeFile,
        Fs.write_other _ _ _ _ (append_back_ne (bookFilePath book_path file_name))]
  | some old =>
    have hev : save_to_markdown_events fs book_path file_name header content =
        [FsEvent.copyFile (bookFilePath book_path file_name)
           (bookFilePath book_path file_name ++ ".back"),
         FsEvent.writeFile (bookFilePath book_path file_name)
           (savedContent header content)] := by
      unfold save_to_markdown_events
      rw [h, backupPath_eq]
      rfl
    refine ⟨?_, fun h0 => ?_⟩
    · show applyEvents fs (save_to_markdown_events fs book_path file_name header content)
        (bookFilePath book_path file_name) = some ("# " ++ header ++ "\n\n" ++ content)
      rw [hev, applyEvents_pair,
        applyEvent_copyFile_some fs (bookFilePath book_path file_name)
          (bookFilePath book_path file_name ++ ".back") old h,
        applyEvent_writeFile, Fs.write_same]
      rfl
    · exact absurd h0 (by simp)

/-- Witness for C9 at a concrete file system where the target file already
exists, exercising the overwrite case of the content equation. -/
theorem save_to_markdown_exact_content_witness :
    (save_to_markdown (fun q => if q = "c/g.md" then some "prior" else none)
        "c" "g.md" "T" "body").1 "c/g.md" = some "# T\n\nbody" ∧
    ((fun q => if q = "c/g.md" then some "prior" else none : Fs) "c/g.md" = none →
      save_to_markdown_events (fun q => if q = "c/g.md" then some "prior" else none)
          "c" "g.md" "T" "body" =
        [FsEvent.writeFile "c/g.md" "# T\n\nbody"] ∧
      (save_to_markdown (fun q => if q = "c/g.md" then some "prior" else none)
          "c" "g.md" "T" "body").1 "c/g.md.back" =
        (fun q => if q = "c/g.md" then some "prior" else none : Fs) "c/g.md.back") :=
  save_to_markdown_exact_content
    (fun q => if q = "c/g.md" then some "prior" else none) "c" "g.md" "T" "body"

/-- `append_to_markdown(book_path, folder_name, file_name, content)`
(markdown.py lines 66-86): when the file exists, `f"\n\n{content}"` is
written in append mode; otherwise FileNotFoundError is raised, modelled as
`none`. -/
def append_to_markdown (fs : Fs) (book_path folder_name file_name content : String) :
    Option Fs :=
  match fs (folderFilePath book_path folder_name file_name) with
  | some old =>
      some (fs.write (folderFilePath book_path folder_name file_name)
        (old ++ "\n\n" ++ content))
  | none => none

/-- `read_from_markdown(book_path, folder_name, file_name)` (markdown.py
lines 89-112): when the file exists its content is returned; otherwise
FileNotFoundError is raised, modelled as `none`. -/
def read_from_markdown (fs : Fs) (book_path folder_name file_name : String) :
    Option String :=
  match fs (folderFilePath book_path folder_name file_name) with
  | some content => some content
  | none => none

/-- C4: `append_to_markdown` and `read_from_markdown` raise (return `none`)
exactly when the addressed file is absent; read returns the content
unchanged, and append appends two newlines and the new content after the
prior content, leaving every other file untouched (`Fs.write` changes only
the written path). -/
theorem append_read_spec (fs : Fs) (book_path folder_name file_name content : String) :
    (append_to_markdown fs book_path folder_name file_name content = none ↔
      fs (folderFilePath book_path folder_name file_name) = none) ∧
    (read_from_markdown fs book_path folder_name file_name = none ↔
      fs (folderFilePath book_path folder_name file_name) = none) ∧
    read_from_markdown fs book_path folder_name file_name =
      fs (folderFilePath book_path folder_name file_name) ∧
    append_to_markdown fs book_path folder_name file_name content =
      (fs (folderFilePath book_path folder_name file_name)).map (fun old =>
        fs.write (folderFilePath book_path folder_name file_name)
          (old ++ "\n\n" ++ content)) := by
  unfold append_to_markdown read_from_markdown
  cases h : fs (folderFilePath book_path folder_name file_name) with
  | none => simp
  | some old => simp

/-- Witness for C4 at a concrete one-file file system. -/
theorem append_read_spec_witness :
    (append_to_markdown (fun q => if q = "b/drafts/f.md" then some "x" else none)
        "b" "drafts" "f.md" "more" = none ↔
      (fun q => if q = "b/drafts/f.md" then some "x" else none) "b/drafts/f.md"
        = none) ∧
    (read_from_markdown (fun q => if q = "b/drafts/f.md" then some "x" else none)
        "b" "drafts" "f.md" = none ↔
      (fun q => if q = "b/drafts/f.md" then some "x" else none) "b/drafts/f.md"
        = none) ∧
    read_from_markdown (fun q => if q = "b/drafts/f.md" then some "x" else none)
        "b" "drafts" "f.md" =
      (fun q => if q = "b/drafts/f.md" then some "x" else none) "b/drafts/f.md" ∧
    append_to_markdown (fun q => if q = "b/drafts/f.md" then some "x" else none)
        "b" "drafts" "f.md" "more" =
      ((fun q => if q = "b/drafts/f.md" then some "x" else none) "b/drafts/f.md").map
        (fun old =>
          Fs.write (fun q => if q = "b/drafts/f.md" then some "x" else none)
            "b/drafts/f.md" (old ++ "\n\n" ++ "more")) :=
  append_read_spec (fun q => if q = "b/drafts/f.md" then some "x" else none)
    "b" "drafts" "f.md" "more"

/-- Python `str.split` with a one-character separator, on the character
list: `"a//b".split("/")` is `["a", "", "b"]` and `"".split("/")` is `[""]`. -/
def splitChar (sep : Char) : List Char → List (List Char)
  | [] => [[]]
  | c :: rest =>
    if c = sep then [] :: splitChar sep rest
    else
      match splitChar sep rest with
      | [] => [[c]]
      | h :: t => (c :: h) :: t

/-- `book_name.split("/")[-1]`: the last path component of the book name. -/
def lastComponent (s : String) : String :=
  String.mk ((splitChar '/' s.data).getLastD [])

/-- A remote assistant handle: opaque provider id and display name. -/
structure RemoteAssistant where
  id : String
  name : String
deriving DecidableEq, Repr

/-- Remote provider calls made by the assistant lifecycle functions, in
program order. -/
inductive AgentEvent : Type
  | vectorStoreCreate (name : String)
  | fileBatchUpload (files : List String)
  | assistantCreate (name : String)
  | assistantUpdate (id : String)
deriving DecidableEq, Repr

/-- State of the file-batch polling loop in `create_or_get_assistant`
(agents.py lines 74-82): the loop variable is the `file_batch` object
returned once by `upload_and_poll`. -/
structure FileBatch where
  status : String
deriving DecidableEq, Repr

/-- Loop guard (agents.py line 78):
`file_batch.status == "queued" or file_batch.status == "in_progress"`. -/
def fileBatchLoopGuard (fb : FileBatch) : Bool :=
  fb.status == "queued" || fb.status == "in_progress"

/-- One iteration of the loop body (agents.py lines 79-82): it prints the
status and sleeps; `file_batch` is not reassigned and no call re-reads the
remote status, so the loop state is unchanged. -/
def fileBatchLoopBody (fb : FileBatch) : FileBatch := fb

/-- C3 evidence: the file-batch polling loop of `create_or_get_assistant`
never re-reads the remote status field; its state is invariant, so once
entered with status `"queued"` the guard still holds after any number of
iterations and the loop never terminates, whatever the remote status later
becomes. -/
theorem file_batch_loop_never_exits (n : Nat) :
    fileBatchLoopGuard (fileBatchLoopBody^[n] { status := "queued" }) = true := by
  induction n with
  | zero => rfl
  | succ k ih =>
    rw [Function.iterate_succ_apply]
    exact ih

/-- `create_or_get_assistant(book_name)` (agents.py lines 46-114), modelled
over the remote assistant list. `mdFiles` are the markdown files found
under the book directory, `batchStatus` the status of the file batch
returned by `upload_and_poll`, and `freshId` the id the provider gives a
newly created assistant. The result is the returned assistant, the remote
assistant list afterwards, and the provider calls made; `none` models the
call never returning (the stuck polling loop of agents.py lines 78-82,
entered when the batch status is still queued or in progress). -/
def create_or_get_assistant (assistants : List RemoteAssistant) (book_name : String)
    (mdFiles : List String) (batchStatus : String) (freshId : String) :
    Option (RemoteAssistant × List RemoteAssistant × List AgentEvent) :=
  match assistants.find? (fun a => a.name == lastComponent book_name) with
  | some a => some (a, assistants, [])
  | none =>
    if fileBatchLoopGuard { status := batchStatus } then
      none
    else
      some ({ id := freshId, name := lastComponent book_name },
        assistants ++ [{ id := freshId, name := lastComponent book_name }],
        [AgentEvent.vectorStoreCreate (book_name ++ " Docs"),
         AgentEvent.fileBatchUpload mdFiles,
         AgentEvent.assistantCreate (lastComponent book_name),
         AgentEvent.assistantUpdate freshId])

/-- C5: `create_or_get_assistant` scans the listed assistants for the first
one named like the last path component of the book name; when one exists it
is returned unchanged with no provider call at all, and only when none
matches does the function create a vector store, upload the markdown files,
and create (then update) a new assistant carrying that name. The batch
status returned by `upload_and_poll` is terminal, per the contract of that
helper. -/
theorem create_or_get_assistant_spec
    (assistants : List RemoteAssistant) (book_name : String)
    (mdFiles : List String) (batchStatus freshId : String)
    (h1 : batchStatus ≠ "queued") (h2 : batchStatus ≠ "in_progress") :
    match assistants.find? (fun a => a.name == lastComponent book_name) with
    | some a =>
        a ∈ assistants ∧ a.name = lastComponent book_name ∧
        create_or_get_assistant assistants book_name mdFiles batchStatus freshId =
          some (a, assistants, [])
    | none =>
        create_or_get_assistant assistants book_name mdFiles batchStatus freshId =
          some ({ id := freshId, name := lastComponent book_name },
            assistants ++ [{ id := freshId, name := lastComponent book_name }],
            [AgentEvent.vectorStoreCreate (book_name ++ " Docs"),
             AgentEvent.fileBatchUpload mdFiles,
             AgentEvent.assistantCreate (lastComponent book_name),
             AgentEvent.assistantUpdate freshId]) := by
  have hguard : fileBatchLoopGuard { status := batchStatus } = false := by
    unfold fileBatchLoopGuard
    simp [h1, h2]
  cases hfind : assistants.find? (fun a => a.name == lastComponent book_name) with
  | some a =>
    simp only [hfind]
    refine ⟨List.mem_of_find?_eq_some hfind, ?_, ?_⟩
    · have := List.find?_some hfind
      exact eq_of_beq this
    · unfold create_or_get_assistant
      rw [hfind]
  | none =>
    simp only [hfind]
    unfold create_or_get_assistant
    rw [hfind, hguard]
    rfl

/-- Witness for C5: an assistant with the matching name already exists and
is returned as is, with no provider call. -/
theorem create_or_get_assistant_spec_witness :
    ({ id := "a1", name := "demo" } : RemoteAssistant) ∈
        [({ id := "a1", name := "demo" } : RemoteAssistant)] ∧
    ({ id := "a1", name := "demo" } : RemoteAssistant).name = "demo" ∧
    create_or_get_assistant [{ id := "a1", name := "demo" }] "books/demo"
        ["a.md"] "completed" "fresh" =
      some ({ id := "a1", name := "demo" }, [{ id := "a1", name := "demo" }], []) :=
  create_or_get_assistant_spec [{ id := "a1", name := "demo" }] "books/demo"
    ["a.md"] "completed" "fresh" (by decide) (by decide)

/-- The provider call `client.beta.assistants.delete(assistant_id=aid)`:
the remote resource with that id disappears from the list. -/
def clientDeleteAssistant (assistants : List RemoteAssistant) (aid : String) :
    List RemoteAssistant :=
  assistants.filter (fun a => !(a.id == aid))

/-- `delete_assistant(book_name)` (agents.py lines 29-42): scan the listed
assistants, delete the first one whose name equals the last path component
of the book name, then stop (the loop breaks). -/
def delete_assistant (assistants : List RemoteAssistant) (book_name : String) :
    List RemoteAssistant :=
  match assistants.find? (fun a => a.name == lastComponent book_name) with
  | some a => clientDeleteAssistant assistants a.id
  | none => assistants

/-- C10: under distinct remote ids, `delete_assistant` removes exactly the
first listed assistant whose name matches the last path component of the
book name and keeps every other assistant in place; when no name matches,
the list is unchanged (`List.eraseP` removes the first match and nothing
else). -/
theorem delete_assistant_spec
    (assistants : List RemoteAssistant) (book_name : String)
    (h : (assistants.map (fun a => a.id)).Nodup) :
    delete_assistant assistants book_name =
      assistants.eraseP (fun a => a.name == lastComponent book_name) := by
  revert h
  induction assistants with
  | nil => intro h; rfl
  | cons x xs ih =>
    intro h
    rw [List.map_cons, List.nodup_cons] at h
    cases hx : (x.name == lastComponent book_name) with
    | true =>
      have hfind : (x :: xs).find? (fun a => a.name == lastComponent book_name)
          = some x := List.find?_cons_of_pos xs hx
      have herase : (x :: xs).eraseP (fun a => a.name == lastComponent book_name)
          = xs := List.eraseP_cons_of_pos hx
      unfold delete_assistant
      rw [hfind, herase]
      show clientDeleteAssistant (x :: xs) x.id = xs
      unfold clientDeleteAssistant
      rw [List.filter_cons]
      simp only [beq_self_eq_true, Bool.not_true, Bool.false_eq_true, if_false]
      apply List.filter_eq_self.mpr
      intro a ha
      have hne : a.id ≠ x.id :=
        fun haid => h.1 (haid ▸ List.mem_map_of_mem (fun a => a.id) ha)
      simp [hne]
    | false =>
      have hfind : (x :: xs).find? (fun a => a.name == lastComponent book_name)
          = xs.find? (fun a => a.name == lastComponent book_name) :=
        List.find?_cons_of_neg xs (by rw [hx]; exact Bool.false_ne_true)
      have herase : (x :: xs).eraseP (fun a => a.name == lastComponent book_name)
          = x :: xs.eraseP (fun a => a.name == lastComponent book_name) :=
        List.eraseP_cons_of_neg (by rw [hx]; exact Bool.false_ne_true)
      unfold delete_assistant
      rw [hfind, herase]
      cases hfind2 : xs.find? (fun a => a.name == lastComponent book_name) with
      | none =>
        rw [List.eraseP_of_forall_not (List.find?_eq_none.mp hfind2)]
      | some a =>
        have hmem : a ∈ xs := List.mem_of_find?_eq_some hfind2
        have hne : x.id ≠ a.id :=
          fun haid => h.1 (haid ▸ List.mem_map_of_mem (fun a => a.id) hmem)
        show clientDeleteAssistant (x :: xs) a.id
          = x :: xs.eraseP (fun a => a.name == lastComponent book_name)
        unfold clientDeleteAssistant
        rw [List.filter_cons]
        have hxa : (!(x.id == a.id)) = true := by simp [hne]
        rw [hxa]
        simp only [if_true]
        have ihx := ih h.2
        unfold delete_assistant at ihx
        rw [hfind2] at ihx
        unfold clientDeleteAssistant at ihx
        have ihx2 : List.filter (fun b => !(b.id == a.id)) xs
            = List.eraseP (fun a => a.name == lastComponent book_name) xs := ihx
        rw [ihx2]

/-- Witness for C10 on a concrete three-assistant list. -/
theorem delete_assistant_spec_witness :
    delete_assistant
        [{ id := "i1", name := "alpha" }, { id := "i2", name := "demo" },
         { id := "i3", name := "beta" }] "x/demo" =
      List.eraseP (fun a => a.name == lastComponent "x/demo")
        [{ id := "i1", name := "alpha" }, { id := "i2", name := "demo" },
         { id := "i3", name := "beta" }] :=
  delete_assistant_spec
    [{ id := "i1", name := "alpha" }, { id := "i2", name := "demo" },
     { id := "i3", name := "beta" }] "x/demo" (by decide)

/-- A file of a directory: base name and content. -/
structure MdFile where
  name : String
  content : String
deriving DecidableEq, Repr

/-- The filter `re.match(r"chapter-\d+\.md", f.name)` (markdown.py line
153): anchored at the start only, so the name must begin with `chapter-`,
then one or more digits, then `.md`, and anything may follow. -/
def chapterMatch (name : String) : Bool :=
  let rest := name.data.drop 8
  let ds := rest.takeWhile Char.isDigit
  "chapter-".data.isPrefixOf name.data && !ds.isEmpty &&
    ".md".data.isPrefixOf (rest.drop ds.length)

/-- The first maximal digit run of a character list
(`re.findall(r"\d+", name)[0]`). -/
def firstDigitRun : List Char → List Char
  | [] => []
  | c :: rest =>
    if c.isDigit then c :: rest.takeWhile Char.isDigit
    else firstDigitRun rest

/-- Decimal value of a digit run. -/
def digitsToNat (ds : List Char) : Nat :=
  ds.foldl (fun n c => 10 * n + (c.toNat - 48)) 0

/-- Sort key of the chapter sort (markdown.py line 154):
`int(re.findall(r"\d+", x.name)[0])`, the first digit run of the name as a
number (for names accepted by `chapterMatch` this is the chapter index). -/
def chapterKey (f : MdFile) : Nat := digitsToNat (firstDigitRun f.name.data)

/-- Chapter comparison used by the python `sorted` call. -/
def chapterLe (a b : MdFile) : Prop := chapterKey a ≤ chapterKey b

instance : DecidableRel chapterLe := fun a b => Nat.decLe (chapterKey a) (chapterKey b)

instance : IsTotal MdFile chapterLe := ⟨fun a b => Nat.le_total (chapterKey a) (chapterKey b)⟩

instance : IsTrans MdFile chapterLe := ⟨fun _ _ _ hab hbc => Nat.le_trans hab hbc⟩

/-- The files consolidated by `consolidate_book_md` (markdown.py lines
142-161), in order: `cover.md` and `back-cover.md` when present, then the
files matched by `chapterMatch` sorted by numeric index (python `sorted` is
a stable ascending sort; insertion sort implements the same ordering), then
`epilogue.md` when present. The chapters directory is the list of its
files. -/
def filesToProcess (chaptersDir : List MdFile) : List MdFile :=
  (["cover.md", "back-cover.md"].filterMap fun n =>
      chaptersDir.find? (fun f => f.name == n))
  ++ List.insertionSort chapterLe (chaptersDir.filter (fun f => chapterMatch f.name))
  ++ (chaptersDir.find? (fun f => f.name == "epilogue.md")).toList

/-- Python truthiness of the optional translate argument: `None` and the
empty string are falsy. -/
def pyTruthy : Option String → Bool
  | none => false
  | some s => !(s == "")

/-- Outcome of a consolidation call: the output path the function returns,
the successive pieces written to the output file, and the contents sent to
`create_message` for translation (empty when no translation happens). -/
structure ConsolidateResult where
  path : String
  units : List String
  translationCalls : List String
deriving DecidableEq, Repr

/-- The parameter list of `get_thread` (agents.py line 190): the function
takes no parameters. -/
def get_thread_params : List String := []

/-- Python positional-argument binding: a call passing more positional
arguments than the callee has parameters raises TypeError, modelled as
`none`. -/
def bindPositional (params : List String) (nargs : Nat) : Option Unit :=
  if nargs ≤ params.length then some () else none

/-- The consolidation data pipeline of `consolidate_book_md` (markdown.py
lines 129-221): output naming, file selection and ordering, per-file
translation and the written pieces. `tr` models the text the assistant
returns for a translation request; each processed file contributes its
(possibly translated) content followed by the fixed `\n\newpage\n`
separator. -/
def consolidate_book_pipeline (book_path primary_language : String)
    (translate : Option String) (tr : String → String)
    (chaptersDir : List MdFile) : ConsolidateResult :=
  { path := book_path ++ "/book/" ++
      (if !pyTruthy translate then "book-" ++ primary_language ++ ".md"
       else "book-" ++ translate.getD "" ++ ".md")
    units := (filesToProcess chaptersDir).map (fun f =>
      (if pyTruthy translate then tr f.content else f.content) ++ "\n\\newpage\n")
    translationCalls :=
      if pyTruthy translate then (filesToProcess chaptersDir).map (fun f => f.content)
      else [] }

/-- `consolidate_book_md(book_path, primary_language, translate)`
(markdown.py lines 115-221). Before the chapter loop the function calls
`get_thread(book_path)` (markdown.py line 140) with one positional
argument, while `get_thread` (agents.py line 190) takes none, so every
call raises TypeError (`none`) there and the pipeline result is never
produced; nothing is written and no path is returned. (The later
`create_message` call at markdown.py line 199 would also mismatch its
signature, but it is never reached.) -/
def consolidate_book_md (book_path primary_language : String)
    (translate : Option String) (tr : String → String)
    (chaptersDir : List MdFile) : Option ConsolidateResult :=
  match bindPositional get_thread_params 1 with
  | none => none
  | some _ =>
    some (consolidate_book_pipeline book_path primary_language translate tr chaptersDir)

/-- `re.sub(r"^#.*\n", "", content)` (markdown.py line 308): without `re.M`
the pattern matches at most once, at position 0; it removes the first line
together with its newline when the content starts with `#` and contains a
newline. -/
def removeTitle (s : String) : String :=
  if "#".data.isPrefixOf s.data && s.data.contains '\n' then
    String.mk ((s.data.dropWhile (fun c => c ≠ '\n')).drop 1)
  else s

/-- The whitespace set of python `str.strip()`. -/
def pyWhitespace (c : Char) : Bool :=
  c = ' ' || c = '\t' || c = '\n' || c = '\r' || c = '\x0b' || c = '\x0c'

/-- Python `str.strip()`. -/
def pyStrip (s : String) : String :=
  String.mk (((s.data.dropWhile pyWhitespace).reverse.dropWhile pyWhitespace).reverse)

/-- The translation prompt built by `consolidate_paper_md` (markdown.py
line 312). -/
def translationPrompt (primary target content : String) : String :=
  "Translate the following text from " ++ primary ++ " to " ++ target ++
  ". Maintain all formatting, including markdown syntax, LaTeX formulas, and code blocks. Only translate the actual text content:\n\n"
  ++ content

/-- The configuration fields `consolidate_paper_md` reads via `getattr`
with defaults (markdown.py lines 272-292); keywords are modelled in their
list form. -/
structure PaperConfig where
  book_name : Option String
  authors : List String
  keywords : List String
deriving DecidableEq, Repr

/-- Title and metadata pieces prepended by `consolidate_paper_md` when a
config is present (markdown.py lines 271-292). -/
def paperHeaderUnits : Option PaperConfig → List String
  | none => []
  | some cfg =>
    ["# " ++ cfg.book_name.getD "Untitled Paper" ++ "\n\n"]
    ++ (if cfg.authors.isEmpty then [] else
        "## Authors\n\n" :: cfg.authors.map (fun a => "- " ++ a ++ "\n"))
    ++ ["\n"]
    ++ (if cfg.keywords.isEmpty then [] else
        ["## Keywords\n\n", String.intercalate ", " cfg.keywords ++ "\n\n"])

/-- The custom-section filter (markdown.py line 253):
`file.name.startswith("custom_") and file.suffix == ".md"`. -/
def isCustomName (n : String) : Bool :=
  "custom_".data.isPrefixOf n.data && (pySuffix n == ".md")

/-- The custom section paths in lexicographically sorted order (markdown.py
lines 250-257: the `"sections/<name>"` strings are sorted; sorting them is
the same as sorting the names, the prefix being constant). -/
def customSections (sectionNames : List String) : List String :=
  List.insertionSort (fun a b => a ≤ b)
    ((sectionNames.filter isCustomName).map (fun n => "sections/" ++ n))

/-- The full section order of `consolidate_paper_md` (markdown.py lines
242-266): abstract, introduction, the sorted custom sections, then the
remaining standard sections. -/
def sectionOrder (sectionNames : List String) : List String :=
  ["sections/abstract.md", "sections/introduction.md"]
  ++ customSections sectionNames
  ++ ["sections/related_work.md", "sections/methodology.md",
      "sections/results.md", "sections/discussion.md", "sections/conclusion.md"]

/-- Existence and content of the section file addressed by a relative path
(`paper_path / section`); the sections directory is the list of its files. -/
def sectionLookup (sectionsDir : List MdFile) (p : String) : Option String :=
  (sectionsDir.find? (fun f => ("sections/" ++ f.name) == p)).map (fun f => f.content)

/-- The ordered section paths that exist and are therefore written. -/
def processedSectionPaths (sectionsDir : List MdFile) : List String :=
  (sectionOrder (sectionsDir.map (fun f => f.name))).filter
    (fun p => (sectionLookup sectionsDir p).isSome)

/-- The consolidation data pipeline of `consolidate_paper_md` (markdown.py
lines 238-331): each existing section contributes its content with a
leading `#` title line removed, translated when requested, stripped, plus a
blank line; the title and metadata pieces come first. -/
def consolidate_paper_pipeline (book_path primary_language : String)
    (translate : Option String) (tr : String → String)
    (sectionsDir : List MdFile) (config : Option PaperConfig) : ConsolidateResult :=
  { path := book_path ++ "/output/" ++
      (if pyTruthy translate then "paper-" ++ translate.getD "" ++ ".md"
       else "paper-" ++ primary_language ++ ".md")
    units := paperHeaderUnits config ++
      (sectionOrder (sectionsDir.map (fun f => f.name))).filterMap (fun p =>
        (sectionLookup sectionsDir p).map (fun c =>
          pyStrip (if pyTruthy translate then
              tr (translationPrompt primary_language (translate.getD "") (removeTitle c))
            else removeTitle c) ++ "\n\n"))
    translationCalls :=
      if pyTruthy translate then
        (sectionOrder (sectionsDir.map (fun f => f.name))).filterMap (fun p =>
          (sectionLookup sectionsDir p).map (fun c =>
            translationPrompt primary_language (translate.getD "") (removeTitle c)))
      else [] }

/-- `consolidate_paper_md(book_path, primary_language, translate)`
(markdown.py lines 224-331). When a translation is requested the function
calls `get_thread(book_path)` (markdown.py line 299) with one positional
argument, while `get_thread` (agents.py line 190) takes none, so that
branch raises TypeError (`none`) before any section is processed (the
`create_message` call at markdown.py line 313, which binds `thread_id`
twice, is never reached). Without a translation the function completes and
returns the pipeline result. -/
def consolidate_paper_md (book_path primary_language : String)
    (translate : Option String) (tr : String → String)
    (sectionsDir : List MdFile) (config : Option PaperConfig) :
    Option ConsolidateResult :=
  if pyTruthy translate then
    match bindPositional get_thread_params 1 with
    | none => none
    | some _ =>
      some (consolidate_paper_pipeline book_path primary_language translate tr
        sectionsDir config)
  else
    some (consolidate_paper_pipeline book_path primary_language translate tr
      sectionsDir config)

/-- Position class of a section path in the fixed paper order. -/
def sectionRank (p : String) : Nat :=
  if p = "sections/abstract.md" then 0
  else if p = "sections/introduction.md" then 1
  else if "sections/custom_".data.isPrefixOf p.data then 2
  else if p = "sections/related_work.md" then 3
  else if p = "sections/methodology.md" then 4
  else if p = "sections/results.md" then 5
  else if p = "sections/discussion.md" then 6
  else if p = "sections/conclusion.md" then 7
  else 8

theorem mem_coverPart {chaptersDir : List MdFile} {f : MdFile}
    (hf : f ∈ (["cover.md", "back-cover.md"].filterMap fun n =>
      chaptersDir.find? (fun g => g.name == n))) :
    f.name = "cover.md" ∨ f.name = "back-cover.md" := by
  rcases List.mem_filterMap.mp hf with ⟨n, hn, hfind⟩
  have hbeq0 := List.find?_some hfind
  have hbeq : (f.name == n) = true := hbeq0
  have heq : f.name = n := eq_of_beq hbeq
  simp only [List.mem_cons, List.not_mem_nil, or_false] at hn
  rcases hn with rfl | rfl
  · exact Or.inl heq
  · exact Or.inr heq

theorem chapterMatch_of_mem_chapterPart {chaptersDir : List MdFile} {f : MdFile}
    (hf : f ∈ List.insertionSort chapterLe
      (chaptersDir.filter (fun g => chapterMatch g.name))) :
    chapterMatch f.name = true :=
  (List.mem_filter.mp ((List.mem_insertionSort chapterLe).mp hf)).2

theorem name_of_mem_epiloguePart {chaptersDir : List MdFile} {f : MdFile}
    (hf : f ∈ (chaptersDir.find? (fun g => g.name == "epilogue.md")).toList) :
    f.name = "epilogue.md" := by
  have hmem : f ∈ chaptersDir.find? (fun g => g.name == "epilogue.md") :=
    Option.mem_toList.mp hf
  have hfind : chaptersDir.find? (fun g => g.name == "epilogue.md") = some f :=
    Option.mem_def.mp hmem
  have hbeq0 := List.find?_some hfind
  have hbeq : (f.name == "epilogue.md") = true := hbeq0
  exact eq_of_beq hbeq

theorem coverRel (f g : MdFile)
    (hf : f.name = "cover.md" ∨ f.name = "back-cover.md") :
    (chapterMatch f.name = true → chapterMatch g.name = true →
      chapterKey f ≤ chapterKey g) ∧
    ((g.name = "cover.md" ∨ g.name = "back-cover.md") →
      (f.name = "cover.md" ∨ f.name = "back-cover.md")) ∧
    (f.name = "epilogue.md" → g.name = "epilogue.md") := by
  refine ⟨?_, fun _ => hf, ?_⟩
  · intro hcm _
    rcases hf with h | h <;> rw [h] at hcm <;> exact absurd hcm (by decide)
  · intro hep
    rcases hf with h | h <;> rw [h] at hep <;> exact absurd hep (by decide)

theorem chapPairRel (f g : MdFile) (hf : chapterMatch f.name = true)
    (hg : chapterMatch g.name = true) (hle : chapterLe f g) :
    (chapterMatch f.name = true → chapterMatch g.name = true →
      chapterKey f ≤ chapterKey g) ∧
    ((g.name = "cover.md" ∨ g.name = "back-cover.md") →
      (f.name = "cover.md" ∨ f.name = "back-cover.md")) ∧
    (f.name = "epilogue.md" → g.name = "epilogue.md") := by
  refine ⟨fun _ _ => hle, ?_, ?_⟩
  · intro hcov
    rcases hcov with h | h <;> rw [h] at hg <;> exact absurd hg (by decide)
  · intro hep
    rw [hep] at hf
    exact absurd hf (by decide)

theorem chapEpiRel (f g : MdFile) (_hf : chapterMatch f.name = true)
    (hg : g.name = "epilogue.md") :
    (chapterMatch f.name = true → chapterMatch g.name = true →
      chapterKey f ≤ chapterKey g) ∧
    ((g.name = "cover.md" ∨ g.name = "back-cover.md") →
      (f.name = "cover.md" ∨ f.name = "back-cover.md")) ∧
    (f.name = "epilogue.md" → g.name = "epilogue.md") := by
  refine ⟨?_, ?_, fun _ => hg⟩
  · intro _ hcmg
    rw [hg] at hcmg
    exact absurd hcmg (by decide)
  · intro hcov
    rcases hcov with h | h <;> rw [hg] at h <;> exact absurd h (by decide)

theorem epiPairRel (f g : MdFile) (hf : f.name = "epilogue.md")
    (hg : g.name = "epilogue.md") :
    (chapterMatch f.name = true → chapterMatch g.name = true →
      chapterKey f ≤ chapterKey g) ∧
    ((g.name = "cover.md" ∨ g.name = "back-cover.md") →
      (f.name = "cover.md" ∨ f.name = "back-cover.md")) ∧
    (f.name = "epilogue.md" → g.name = "epilogue.md") := by
  refine ⟨?_, ?_, fun _ => hg⟩
  · intro hcm _
    rw [hf] at hcm
    exact absurd hcm (by decide)
  · intro hcov
    rcases hcov with h | h <;> rw [hg] at h <;> exact absurd h (by decide)

/-- C2 evidence: every call to `consolidate_book_md` raises TypeError at
the `get_thread(book_path)` call and never produces an output file; the
file sequence of the never-reached write loop (the pipeline) is the
claimed one: any two chapter files in nondecreasing order of their numeric
index, every cover or back-cover file before everything that is not one,
and the epilogue after everything that is not the epilogue. -/
theorem consolidate_book_md_raises_yet_orders_chapters
    (book_path primary_language : String) (translate : Option String)
    (tr : String → String) (chaptersDir : List MdFile) :
    consolidate_book_md book_path primary_language translate tr chaptersDir = none ∧
    (consolidate_book_pipeline book_path primary_language translate tr
        chaptersDir).units =
      (filesToProcess chaptersDir).map (fun f =>
        (if pyTruthy translate then tr f.content else f.content) ++ "\n\\newpage\n") ∧
    List.Pairwise (fun f g =>
        (chapterMatch f.name = true → chapterMatch g.name = true →
          chapterKey f ≤ chapterKey g) ∧
        ((g.name = "cover.md" ∨ g.name = "back-cover.md") →
          (f.name = "cover.md" ∨ f.name = "back-cover.md")) ∧
        (f.name = "epilogue.md" → g.name = "epilogue.md"))
      (filesToProcess chaptersDir) := by
  refine ⟨rfl, rfl, ?_⟩
  unfold filesToProcess
  rw [List.pairwise_append]
  refine ⟨?_, ?_, ?_⟩
  · rw [List.pairwise_append]
    refine ⟨?_, ?_, ?_⟩
    · exact List.pairwise_of_forall_mem_list
        (fun f hf g _ => coverRel f g (mem_coverPart hf))
    · have hsorted : List.Pairwise chapterLe
          (List.insertionSort chapterLe
            (chaptersDir.filter (fun g => chapterMatch g.name))) :=
        List.sorted_insertionSort chapterLe
          (chaptersDir.filter (fun g => chapterMatch g.name))
      exact List.Pairwise.imp_of_mem
        (fun hf hg hle => chapPairRel _ _
          (chapterMatch_of_mem_chapterPart hf)
          (chapterMatch_of_mem_chapterPart hg) hle)
        hsorted
    · exact fun f hf g _ => coverRel f g (mem_coverPart hf)
  · exact List.pairwise_of_forall_mem_list
      (fun f hf g hg => epiPairRel f g
        (name_of_mem_epiloguePart hf) (name_of_mem_epiloguePart hg))
  · intro f hf g hg
    rcases List.mem_append.mp hf with hfA | hfB
    · exact coverRel f g (mem_coverPart hfA)
    · exact chapEpiRel f g (chapterMatch_of_mem_chapterPart hfB)
        (name_of_mem_epiloguePart hg)

/-- C7 evidence: the intended output naming computed by the consolidation
pipelines is by language code, under `book/` for books and `output/` for
papers (translation language when given, primary language otherwise), but
the only consolidation call that actually returns is the untranslated
paper one, and it returns the pipeline result with exactly that path;
both book cases and the translated paper case raise TypeError at the
`get_thread(book_path)` call and return nothing. -/
theorem consolidation_output_paths
    (book_path primary t : String) (tr : String → String)
    (chaptersDir sectionsDir : List MdFile) (config : Option PaperConfig)
    (ht : t ≠ "") :
    consolidate_book_md book_path primary none tr chaptersDir = none ∧
    consolidate_book_md book_path primary (some t) tr chaptersDir = none ∧
    consolidate_paper_md book_path primary (some t) tr sectionsDir config = none ∧
    consolidate_paper_md book_path primary none tr sectionsDir config =
      some (consolidate_paper_pipeline book_path primary none tr sectionsDir config) ∧
    (consolidate_book_pipeline book_path primary none tr chaptersDir).path =
        book_path ++ "/book/book-" ++ primary ++ ".md" ∧
    (consolidate_book_pipeline book_path primary (some t) tr chaptersDir).path =
        book_path ++ "/book/book-" ++ t ++ ".md" ∧
    (consolidate_paper_pipeline book_path primary none tr sectionsDir config).path =
        book_path ++ "/output/paper-" ++ primary ++ ".md" ∧
    (consolidate_paper_pipeline book_path primary (some t) tr sectionsDir
        config).path =
      book_path ++ "/output/paper-" ++ t ++ ".md" := by
  have htruthy : pyTruthy (some t) = true := by
    unfold pyTruthy
    simp [ht]
  refine ⟨rfl, rfl, ?_, rfl, ?_, ?_, ?_, ?_⟩
  · unfold consolidate_paper_md
    rw [htruthy]
    rfl
  · show book_path ++ "/book/" ++ ("book-" ++ primary ++ ".md") =
      book_path ++ "/book/book-" ++ primary ++ ".md"
    simp only [String.append_assoc]
    have hlit : ("/book/" : String) ++ ("book-" ++ (primary ++ ".md")) =
        "/book/book-" ++ (primary ++ ".md") := by
      rw [← String.append_assoc]
      rfl
    rw [hlit]
  · show book_path ++ "/book/" ++
        (if !pyTruthy (some t) then "book-" ++ primary ++ ".md"
         else "book-" ++ (some t).getD "" ++ ".md") =
      book_path ++ "/book/book-" ++ t ++ ".md"
    rw [htruthy]
    show book_path ++ "/book/" ++ ("book-" ++ t ++ ".md") =
      book_path ++ "/book/book-" ++ t ++ ".md"
    simp only [String.append_assoc]
    have hlit : ("/book/" : String) ++ ("book-" ++ (t ++ ".md")) =
        "/book/book-" ++ (t ++ ".md") := by
      rw [← String.append_assoc]
      rfl
    rw [hlit]
  · show book_path ++ "/output/" ++ ("paper-" ++ primary ++ ".md") =
      book_path ++ "/output/paper-" ++ primary ++ ".md"
    simp only [String.append_assoc]
    have hlit : ("/output/" : String) ++ ("paper-" ++ (primary ++ ".md")) =
        "/output/paper-" ++ (primary ++ ".md") := by
      rw [← String.append_assoc]
      rfl
    rw [hlit]
  · show book_path ++ "/output/" ++
        (if pyTruthy (some t) then "paper-" ++ (some t).getD "" ++ ".md"
         else "paper-" ++ primary ++ ".md") =
      book_path ++ "/output/paper-" ++ t ++ ".md"
    rw [htruthy]
    show book_path ++ "/output/" ++ ("paper-" ++ t ++ ".md") =
      book_path ++ "/output/paper-" ++ t ++ ".md"
    simp only [String.append_assoc]
    have hlit : ("/output/" : String) ++ ("paper-" ++ (t ++ ".md")) =
        "/output/paper-" ++ (t ++ ".md") := by
      rw [← String.append_assoc]
      rfl
    rw [hlit]

/-- Witness for C7 with translation language `fr` and primary language
`en`. -/
theorem consolidation_output_paths_witness :
    consolidate_book_md "b" "en" none (fun s => s) [] = none ∧
    consolidate_book_md "b" "en" (some "fr") (fun s => s) [] = none ∧
    consolidate_paper_md "b" "en" (some "fr") (fun s => s) [] none = none ∧
    consolidate_paper_md "b" "en" none (fun s => s) [] none =
      some (consolidate_paper_pipeline "b" "en" none (fun s => s) [] none) ∧
    (consolidate_book_pipeline "b" "en" none (fun s => s) []).path =
      "b/book/book-en.md" ∧
    (consolidate_book_pipeline "b" "en" (some "fr") (fun s => s) []).path =
      "b/book/book-fr.md" ∧
    (consolidate_paper_pipeline "b" "en" none (fun s => s) [] none).path =
      "b/output/paper-en.md" ∧
    (consolidate_paper_pipeline "b" "en" (some "fr") (fun s => s) [] none).path =
      "b/output/paper-fr.md" :=
  consolidation_output_paths "b" "en" "fr" (fun s => s) [] [] none (by decide)

/-- C8 evidence: when no translation language is given, no content is sent
to `create_message` by either consolidation function; the untranslated
paper call completes and writes each section content unchanged apart from
removal of a leading `#` title line, stripping, and the blank-line
separator, while the book call raises TypeError before writing any unit
(its never-reached write loop would have written each chapter content
unchanged plus the page-break separator, with no translation call). -/
theorem no_translation_when_not_requested
    (book_path primary : String) (tr : String → String)
    (chaptersDir sectionsDir : List MdFile) (config : Option PaperConfig) :
    consolidate_book_md book_path primary none tr chaptersDir = none ∧
    (consolidate_book_pipeline book_path primary none tr
        chaptersDir).translationCalls = [] ∧
    (consolidate_book_pipeline book_path primary none tr chaptersDir).units =
      (filesToProcess chaptersDir).map (fun f => f.content ++ "\n\\newpage\n") ∧
    consolidate_paper_md book_path primary none tr sectionsDir config =
      some (consolidate_paper_pipeline book_path primary none tr sectionsDir config) ∧
    (consolidate_paper_pipeline book_path primary none tr sectionsDir
        config).translationCalls = [] ∧
    (consolidate_paper_pipeline book_path primary none tr sectionsDir config).units =
      paperHeaderUnits config ++
        (sectionOrder (sectionsDir.map (fun f => f.name))).filterMap (fun p =>
          (sectionLookup sectionsDir p).map (fun c =>
            pyStrip (removeTitle c) ++ "\n\n")) :=
  ⟨rfl, rfl, rfl, rfl, rfl, rfl⟩

theorem mem_customSections {names : List String} {p : String}
    (hp : p ∈ customSections names) :
    ∃ n, n ∈ names ∧ isCustomName n = true ∧ p = "sections/" ++ n := by
  unfold customSections at hp
  have h1 : p ∈ (names.filter isCustomName).map (fun n => "sections/" ++ n) :=
    (List.mem_insertionSort (fun a b : String => a ≤ b)).mp hp
  rcases List.mem_map.mp h1 with ⟨n, hn, heq⟩
  rcases List.mem_filter.mp hn with ⟨hmem, hcn⟩
  exact ⟨n, hmem, hcn, heq.symm⟩

theorem sectionRank_custom {n : String}
    (h : "custom_".data.isPrefixOf n.data = true) :
    sectionRank ("sections/" ++ n) = 2 := by
  have hpre : "sections/custom_".data.isPrefixOf ("sections/" ++ n).data = true := by
    rcases List.isPrefixOf_iff_prefix.mp h with ⟨t2, ht⟩
    apply List.isPrefixOf_iff_prefix.mpr
    refine ⟨t2, ?_⟩
    rw [String.data_append]
    rw [show ("sections/custom_".data : List Char) =
      "sections/".data ++ "custom_".data from rfl]
    rw [List.append_assoc, ht]
  have hne1 : ("sections/" ++ n) ≠ "sections/abstract.md" := by
    intro heq
    have hd := congrArg String.data heq
    rw [String.data_append] at hd
    have hd1 : "sections/".data ++ n.data
        = "sections/".data ++ "abstract.md".data := hd
    have hd2 : n.data = "abstract.md".data := List.append_cancel_left hd1
    rw [hd2] at h
    exact absurd h (by decide)
  have hne2 : ("sections/" ++ n) ≠ "sections/introduction.md" := by
    intro heq
    have hd := congrArg String.data heq
    rw [String.data_append] at hd
    have hd1 : "sections/".data ++ n.data
        = "sections/".data ++ "introduction.md".data := hd
    have hd2 : n.data = "introduction.md".data := List.append_cancel_left hd1
    rw [hd2] at h
    exact absurd h (by decide)
  unfold sectionRank
  rw [if_neg hne1, if_neg hne2, if_pos hpre]

theorem filterMap_lookup_eq (sd : List MdFile) (g : String → String)
    (order : List String) :
    order.filterMap (fun p => (sectionLookup sd p).map g) =
      (order.filter (fun p => (sectionLookup sd p).isSome)).map
        (fun p => g ((sectionLookup sd p).getD "")) := by
  induction order with
  | nil => rfl
  | cons hd tl ih =>
    cases h : sectionLookup sd hd with
    | none => simp [List.filterMap_cons, List.filter_cons, h, ih]
    | some c => simp [List.filterMap_cons, List.filter_cons, h, ih]

/-- C6: on the untranslated path (the one that completes)
`consolidate_paper_md` returns the pipeline result, which writes exactly
the existing section files (a sublist of the fixed section order, absent
files skipped); in the written path sequence the rank order abstract,
introduction, custom sections, related work, methodology, results,
discussion, conclusion is respected, with the custom sections
lexicographically sorted among themselves, and the written pieces follow
that path sequence. -/
theorem consolidate_paper_md_section_order
    (book_path primary : String) (tr : String → String)
    (sectionsDir : List MdFile) (config : Option PaperConfig) :
    List.Pairwise (fun a b => sectionRank a < sectionRank b ∨
        (sectionRank a = 2 ∧ sectionRank b = 2 ∧ a ≤ b))
      (processedSectionPaths sectionsDir) ∧
    (processedSectionPaths sectionsDir).Sublist
      (sectionOrder (sectionsDir.map (fun f => f.name))) ∧
    consolidate_paper_md book_path primary none tr sectionsDir config =
      some (consolidate_paper_pipeline book_path primary none tr sectionsDir config) ∧
    (consolidate_paper_pipeline book_path primary none tr sectionsDir config).units =
      paperHeaderUnits config ++ (processedSectionPaths sectionsDir).map (fun p =>
        pyStrip (removeTitle ((sectionLookup sectionsDir p).getD "")) ++ "\n\n") := by
  have hcustomRank : ∀ p ∈ customSections (sectionsDir.map (fun f => f.name)),
      sectionRank p = 2 := by
    intro p hp
    rcases mem_customSections hp with ⟨n, _, hcn, rfl⟩
    have hcn2 : "custom_".data.isPrefixOf n.data = true ∧ (pySuffix n == ".md") = true := by
      rw [← Bool.and_eq_true]
      exact hcn
    exact sectionRank_custom hcn2.1
  have horder : List.Pairwise (fun a b => sectionRank a < sectionRank b ∨
      (sectionRank a = 2 ∧ sectionRank b = 2 ∧ a ≤ b))
      (sectionOrder (sectionsDir.map (fun f => f.name))) := by
    unfold sectionOrder
    rw [List.pairwise_append]
    refine ⟨?_, ?_, ?_⟩
    · rw [List.pairwise_append]
      refine ⟨?_, ?_, ?_⟩
      · decide
      · have hsorted : List.Pairwise (fun a b : String => a ≤ b)
            (customSections (sectionsDir.map (fun f => f.name))) :=
          List.sorted_insertionSort (fun a b : String => a ≤ b)
            (((sectionsDir.map (fun f => f.name)).filter isCustomName).map
              (fun n => "sections/" ++ n))
        exact List.Pairwise.imp_of_mem
          (fun ha hb hle => Or.inr ⟨hcustomRank _ ha, hcustomRank _ hb, hle⟩)
          hsorted
      · intro a ha b hb
        have hb2 := hcustomRank b hb
        have ha2 : sectionRank a = 0 ∨ sectionRank a = 1 := by
          simp only [List.mem_cons, List.not_mem_nil, or_false] at ha
          rcases ha with rfl | rfl
          · exact Or.inl (by decide)
          · exact Or.inr (by decide)
        rcases ha2 with h | h <;> exact Or.inl (by rw [h, hb2]; decide)
    · decide
    · intro a ha b hb
      have hb3 : 3 ≤ sectionRank b := by
        simp only [List.mem_cons, List.not_mem_nil, or_false] at hb
        rcases hb with rfl | rfl | rfl | rfl | rfl <;> decide
      have ha2 : sectionRank a ≤ 2 := by
        rcases List.mem_append.mp ha with h1 | h2
        · simp only [List.mem_cons, List.not_mem_nil, or_false] at h1
          rcases h1 with rfl | rfl <;> decide
        · rw [hcustomRank a h2]
      exact Or.inl (lt_of_le_of_lt ha2 (lt_of_lt_of_le (by decide) hb3))
  refine ⟨List.Pairwise.sublist (List.filter_sublist _) horder,
    List.filter_sublist _, rfl, ?_⟩
  show paperHeaderUnits config ++
      (sectionOrder (sectionsDir.map (fun f => f.name))).filterMap (fun p =>
        (sectionLookup sectionsDir p).map (fun c => pyStrip (removeTitle c) ++ "\n\n"))
    = paperHeaderUnits config ++ (processedSectionPaths sectionsDir).map (fun p =>
        pyStrip (removeTitle ((sectionLookup sectionsDir p).getD "")) ++ "\n\n")
  rw [filterMap_lookup_eq]
  rfl

/-- Witness for C6 on a concrete sections directory with two unsorted
custom sections. -/
theorem consolidate_paper_md_section_order_witness :
    List.Pairwise (fun a b => sectionRank a < sectionRank b ∨
        (sectionRank a = 2 ∧ sectionRank b = 2 ∧ a ≤ b))
      (processedSectionPaths
        [{ name := "introduction.md", content := "I" },
         { name := "custom_b.md", content := "CB" },
         { name := "custom_a.md", content := "CA" },
         { name := "results.md", content := "R" }]) ∧
    (processedSectionPaths
        [{ name := "introduction.md", content := "I" },
         { name := "custom_b.md", content := "CB" },
         { name := "custom_a.md", content := "CA" },
         { name := "results.md", content := "R" }]).Sublist
      (sectionOrder ([({ name := "introduction.md", content := "I" } : MdFile),
         { name := "custom_b.md", content := "CB" },
         { name := "custom_a.md", content := "CA" },
         { name := "results.md", content := "R" }].map (fun f => f.name))) ∧
    consolidate_paper_md "p" "en" none (fun s => s)
        [{ name := "introduction.md", content := "I" },
         { name := "custom_b.md", content := "CB" },
         { name := "custom_a.md", content := "CA" },
         { name := "results.md", content := "R" }] none =
      some (consolidate_paper_pipeline "p" "en" none (fun s => s)
        [{ name := "introduction.md", content := "I" },
         { name := "custom_b.md", content := "CB" },
         { name := "custom_a.md", content := "CA" },
         { name := "results.md", content := "R" }] none) ∧
    (consolidate_paper_pipeline "p" "en" none (fun s => s)
        [{ name := "introduction.md", content := "I" },
         { name := "custom_b.md", content := "CB" },
         { name := "custom_a.md", content := "CA" },
         { name := "results.md", content := "R" }] none).units =
      paperHeaderUnits none ++
        (processedSectionPaths
          [{ name := "introduction.md", content := "I" },
           { name := "custom_b.md", content := "CB" },
           { name := "custom_a.md", content := "CA" },
           { name := "results.md", content := "R" }]).map (fun p =>
          pyStrip (removeTitle ((sectionLookup
            [{ name := "introduction.md", content := "I" },
             { name := "custom_b.md", content := "CB" },
             { name := "custom_a.md", content := "CA" },
             { name := "results.md", content := "R" }] p).getD "")) ++ "\n\n") :=
  consolidate_paper_md_section_order "p" "en" (fun s => s)
    [{ name := "introduction.md", content := "I" },
     { name := "custom_b.md", content := "CB" },
     { name := "custom_a.md", content := "CA" },
     { name := "results.md", content := "R" }] none
